import Mathlib

/-!
Shallow embedding of `app.py` from the AiResumeAnalyzer repository: a Flask
backend that extracts text from a resume PDF, sends it with a job description
to a generative-AI model, and normalizes the model's JSON reply into a fixed
four-field analysis result.

Python strings are modelled as `List Char`; the external collaborators
(the generative-AI endpoint, the JSON parser `json.loads`, and the PDF text
extractor) are parameters of the functions that call them.
-/

namespace ResumeAnalyzer

abbrev Str := List Char

/-- The six ASCII whitespace characters stripped by Python `str.strip()`. -/
def isPySpace (c : Char) : Bool :=
  c == ' ' || c == '\t' || c == '\n' || c == '\r' || c == '\x0b' || c == '\x0c'

/-- Python `str.strip()`: drop leading and trailing whitespace. -/
def pyStrip (s : Str) : Str :=
  ((s.dropWhile isPySpace).reverse.dropWhile isPySpace).reverse

/-- Python `str.startswith`. -/
def startsWithL (s p : Str) : Bool := p.isPrefixOf s

/-- Python `str.endswith`. -/
def endsWithL (s p : Str) : Bool := p.isSuffixOf s

def fenceJson : Str := "```json".toList
def fence : Str := "```".toList
def jsonTail : Str := "json".toList

/-- Embedding of `remove_code_fences` (app.py lines 95-103). -/
def remove_code_fences (text : Str) : Str :=
  let t0 := pyStrip text
  let t1 :=
    if startsWithL t0 fenceJson then pyStrip (t0.drop 7)
    else if startsWithL t0 fence then pyStrip (t0.drop 3)
    else t0
  if endsWithL t1 fence then pyStrip (t1.take (t1.length - 3)) else t1

/-- JSON values as produced by `json.loads`. -/
inductive JVal where
  | jnull : JVal
  | jbool : Bool → JVal
  | jnum : Int → JVal
  | jstr : Str → JVal
  | jarr : List JVal → JVal
  | jobj : List (Str × JVal) → JVal

/-- A Python dict with string keys and JSON values (keys assumed distinct,
as `json.loads` deduplicates). -/
abbrev Dict := List (Str × JVal)

/-- First-match lookup in a dict. -/
def dictLookup (d : Dict) (k : Str) : Option JVal :=
  match d with
  | [] => none
  | (k', v) :: rest => if k' = k then some v else dictLookup rest k

/-- Python `dict.get(k, default)`. -/
def dGet (d : Dict) (k : Str) (dflt : JVal) : JVal :=
  match dictLookup d k with
  | some v => v
  | none => dflt

/-- Keys of a dict, in order. -/
def keysOf (d : Dict) : List Str := d.map Prod.fst

/-- Two dicts are equivalent when every lookup agrees (Python `dict` equality:
same key set, same values, order-insensitive). -/
def dictEqv (d₁ d₂ : Dict) : Prop := ∀ k, dictLookup d₁ k = dictLookup d₂ k

-- The four result keys and the literal strings of `call_gemini`.

def kScore : Str := "score".toList
def kExplanation : Str := "explanation".toList
def kMissing : Str := "missing_skills".toList
def kPresent : Str := "present_skills".toList
def failPrefixStr : Str := "AI analysis failed: ".toList
def userRole : Str := "user".toList
def resumeHeader : Str := "Resume:\n".toList
def jdHeader : Str := "Job Description:\n".toList

/-- The fixed instructional prompt of `call_gemini` (app.py lines 108-121). -/
def promptText : Str :=
  ("\nYou are an expert HR professional and ATS (Applicant Tracking System) specialist.\nAnalyze the provided resume against the job description.\n\nRespond ONLY with a valid JSON object, with NO extra text, markdown, or code fences.\n\nJSON format:\n\x7b\n  \"score\": <number between 0-100>,\n  \"explanation\": \"<summary>\",\n  \"missing_skills\": [\"skill1\", \"skill2\"],\n  \"present_skills\": [\"skill1\", \"skill2\"]\n\x7d\n").toList

/-- One role-tagged text part of the request to the model. -/
structure Content where
  role : Str
  text : Str

/-- The `contents` list submitted to the model (app.py lines 125-129):
the prompt, the resume truncated to 4000 characters, and the job
description truncated to 2000 characters. -/
def buildContents (resume_txt jd_txt : Str) : List Content :=
  [⟨userRole, promptText⟩,
   ⟨userRole, resumeHeader ++ resume_txt.take 4000⟩,
   ⟨userRole, jdHeader ++ jd_txt.take 2000⟩]

/-- The degraded result built in the `except` branch (app.py lines 147-153). -/
def degraded (err : Str) : Dict :=
  [(kScore, JVal.jnum 0),
   (kExplanation, JVal.jstr (failPrefixStr ++ err)),
   (kMissing, JVal.jarr []),
   (kPresent, JVal.jarr [])]

/-- The four `data.get` extractions on the success path (app.py lines 140-145). -/
def normalize (data : Dict) : Dict :=
  [(kScore, dGet data kScore (JVal.jnum 0)),
   (kExplanation, dGet data kExplanation (JVal.jstr [])),
   (kMissing, dGet data kMissing (JVal.jarr [])),
   (kPresent, dGet data kPresent (JVal.jarr []))]

/-- Python type name of a JSON value, as it appears in an `AttributeError`
message when `data` is not a dict. -/
def pyTypeName : JVal → Str
  | JVal.jnull => "NoneType".toList
  | JVal.jbool _ => "bool".toList
  | JVal.jnum _ => "int".toList
  | JVal.jstr _ => "str".toList
  | JVal.jarr _ => "list".toList
  | JVal.jobj _ => "dict".toList

/-- Message of the `AttributeError` raised by `data.get(...)` when
`json.loads` returned a non-dict value. -/
def noDictMsg (v : JVal) : Str :=
  "'".toList ++ pyTypeName v ++ "' object has no attribute 'get'".toList

/-- Embedding of `call_gemini` (app.py lines 107-153). The external
collaborators are parameters: `generate` is the Gemini client call
(`Except` error = any exception raised by the client library, carrying its
textual description), `parse` is `json.loads` (`Except` error = the
`JSONDecodeError` text). Every failure lands in the `except` branch and
yields `degraded`. -/
def call_gemini (generate : List Content → Except Str Str)
    (parse : Str → Except Str JVal) (resume_txt jd_txt : Str) : Dict :=
  match generate (buildContents resume_txt jd_txt) with
  | Except.error e => degraded e
  | Except.ok replyText =>
    match parse (remove_code_fences (pyStrip replyText)) with
    | Except.error e => degraded e
    | Except.ok (JVal.jobj data) => normalize data
    | Except.ok v => degraded (noDictMsg v)

/-- The textual description of the failure `call_gemini` runs into, if any:
`none` means the success path (a parsed JSON dict) is taken. -/
def failureMsg (generate : List Content → Except Str Str)
    (parse : Str → Except Str JVal) (resume_txt jd_txt : Str) : Option Str :=
  match generate (buildContents resume_txt jd_txt) with
  | Except.error e => some e
  | Except.ok replyText =>
    match parse (remove_code_fences (pyStrip replyText)) with
    | Except.error e => some e
    | Except.ok (JVal.jobj _) => none
    | Except.ok v => some (noDictMsg v)

-- The `/upload` route.

def kResume : Str := "resume".toList
def kJdText : Str := "jd_text".toList
def kError : Str := "error".toList
def missingMsg : Str := "Missing resume file or job description text".toList

/-- A multipart POST request: `files` maps file-field names to file bytes,
`form` maps form-field names to text values. -/
structure UploadRequest where
  files : List (Str × Str)
  form : List (Str × Str)

/-- First-match lookup in a string-valued field map. -/
def fieldLookup (m : List (Str × Str)) (k : Str) : Option Str :=
  match m with
  | [] => none
  | (k', v) :: rest => if k' = k then some v else fieldLookup rest k

/-- An HTTP response: status code and JSON body. -/
abbrev HttpResponse := Nat × Dict

/-- Embedding of the `/upload` handler (app.py lines 186-196) together with
the surrounding error plumbing: a missing field returns 400 with an error
body; an exception from `pdf_to_text` (the `extract` parameter, modelling
the PyMuPDF call) is not caught in the handler and reaches the global
`handle_exception` handler (app.py lines 232-234), producing
`(500, [(kError, jstr e)])`; otherwise the handler returns 200 with the
`call_gemini` result. -/
def upload_and_analyze (extract : Str → Except Str Str)
    (generate : List Content → Except Str Str)
    (parse : Str → Except Str JVal) (req : UploadRequest) : HttpResponse :=
  match fieldLookup req.files kResume with
  | none => (400, [(kError, JVal.jstr missingMsg)])
  | some fileBytes =>
    match fieldLookup req.form kJdText with
    | none => (400, [(kError, JVal.jstr missingMsg)])
    | some jd_txt =>
      match extract fileBytes with
      | Except.error e => (500, [(kError, JVal.jstr e)])
      | Except.ok resume_txt => (200, call_gemini generate parse resume_txt jd_txt)

/-- Two back-to-back submissions of the same request: no state is threaded
from the first run into the second. -/
def processTwice (extract : Str → Except Str Str)
    (generate : List Content → Except Str Str)
    (parse : Str → Except Str JVal) (req : UploadRequest) :
    HttpResponse × HttpResponse :=
  let r₁ := upload_and_analyze extract generate parse req
  let r₂ := upload_and_analyze extract generate parse req
  (r₁, r₂)

-- Predicates used to state key-set and typing conditions on parsed replies.

/-- The four result keys in the order `call_gemini` emits them. -/
def fourKeys : List Str := [kScore, kExplanation, kMissing, kPresent]

def isNumV : JVal → Bool
  | JVal.jnum _ => true
  | _ => false

def isStrV : JVal → Bool
  | JVal.jstr _ => true
  | _ => false

def isStrArr : JVal → Bool
  | JVal.jarr xs => xs.all isStrV
  | _ => false

/-- The dict has exactly the four expected keys (four entries, each expected
key present). -/
def exactKeys (d : Dict) : Bool :=
  (d.length == 4) && (dictLookup d kScore).isSome && (dictLookup d kExplanation).isSome
    && (dictLookup d kMissing).isSome && (dictLookup d kPresent).isSome

/-- The four extracted fields have the types the prompt requests. -/
def wellTyped (d : Dict) : Bool :=
  isNumV (dGet d kScore (JVal.jnum 0)) && isStrV (dGet d kExplanation (JVal.jstr []))
    && isStrArr (dGet d kMissing (JVal.jarr [])) && isStrArr (dGet d kPresent (JVal.jarr []))

-- Concrete stubs and sample data, used by witnesses and counterexamples.

def netErr : Str := "503 Service Unavailable".toList
def decodeErr : Str := "Expecting value: line 1 column 1 (char 0)".toList
def fitzErr : Str := "Failed to open stream".toList
def sampleResume : Str := "Python, Go, 5 years backend".toList
def sampleJd : Str := "Seeking Go backend engineer".toList
def pdfBytes : Str := "%PDF-1.4 sample".toList
def badPdf : Str := "not a pdf".toList

/-- A stub model whose call always raises (e.g. a network error). -/
def genFail : List Content → Except Str Str := fun _ => Except.error netErr

/-- A deterministic stub model that always replies with the given text. -/
def genOk (reply : Str) : List Content → Except Str Str := fun _ => Except.ok reply

/-- A stub `json.loads` that always raises a decode error. -/
def parseFail : Str → Except Str JVal := fun _ => Except.error decodeErr

/-- A stub `pdf_to_text` that extracts the given text from any binary. -/
def extractOk (txt : Str) : Str → Except Str Str := fun _ => Except.ok txt

/-- A stub `pdf_to_text` that raises the given parse error on any binary. -/
def extractFail (msg : Str) : Str → Except Str Str := fun _ => Except.error msg

def sampleReq : UploadRequest := ⟨[(kResume, pdfBytes)], [(kJdText, sampleJd)]⟩
def emptyFilesReq : UploadRequest := ⟨[], [(kJdText, sampleJd)]⟩
def badReq : UploadRequest := ⟨[(kResume, badPdf)], [(kJdText, sampleJd)]⟩

def kExtra : Str := "confidence".toList

/-- The example verdict of spec section 8. -/
def exampleDict : Dict :=
  [(kScore, JVal.jnum 82),
   (kExplanation, JVal.jstr "Strong match".toList),
   (kMissing, JVal.jarr []),
   (kPresent, JVal.jarr [JVal.jstr "Go".toList, JVal.jstr "backend".toList])]

/-- A well-typed reply object carrying one key beyond the expected four. -/
def extraDict : Dict := exampleDict ++ [(kExtra, JVal.jnum 1)]

/-- An unwrapped reply that happens to begin with the four letters json. -/
def jsonPayload : Str := "json 7".toList

/-- A stub `json.loads` that accepts exactly the string 7. -/
def sevenParse : Str → Except Str JVal :=
  fun s => if s = "7".toList then Except.ok (JVal.jnum 7) else Except.error decodeErr

/-- A plain JSON object reply with no fence around it. -/
def innerSample : Str := "\x7b\"score\": 1\x7d".toList

-- ===== Helper lemmas =====

theorem isPrefixOf_eq_iff : ∀ p q : Str, (p.isPrefixOf q) = true ↔ ∃ t, p ++ t = q
  | [], q => by simp [List.isPrefixOf]
  | _ :: _, [] => by simp [List.isPrefixOf]
  | a :: as, b :: bs => by
    simp only [List.isPrefixOf, Bool.and_eq_true, beq_iff_eq, List.cons_append,
      List.cons.injEq]
    constructor
    · rintro ⟨rfl, h⟩
      obtain ⟨t, ht⟩ := (isPrefixOf_eq_iff as bs).1 h
      exact ⟨t, rfl, ht⟩
    · rintro ⟨t, rfl, ht⟩
      exact ⟨rfl, (isPrefixOf_eq_iff as bs).2 ⟨t, ht⟩⟩

theorem startsWithL_iff (s p : Str) : startsWithL s p = true ↔ ∃ t, p ++ t = s :=
  isPrefixOf_eq_iff p s

theorem endsWithL_iff (s p : Str) : endsWithL s p = true ↔ ∃ t, t ++ p = s := by
  unfold endsWithL List.isSuffixOf
  rw [isPrefixOf_eq_iff]
  constructor
  · rintro ⟨r, hr⟩
    refine ⟨r.reverse, ?_⟩
    have h := congrArg List.reverse hr
    simpa using h
  · rintro ⟨t, rfl⟩
    exact ⟨t.reverse, by simp⟩

theorem not_fenceJson_of_not_fence {t : Str} (h : startsWithL t fence = false) :
    startsWithL t fenceJson = false := by
  cases hj : startsWithL t fenceJson with
  | false => rfl
  | true =>
    obtain ⟨r, hr⟩ := (startsWithL_iff t fenceJson).1 hj
    have hf : startsWithL t fence = true :=
      (startsWithL_iff t fence).2 ⟨jsonTail ++ r, by rw [← hr, ← List.append_assoc]; rfl⟩
    rw [h] at hf
    cases hf

theorem dropWhile_ws_append_of_solid {a : Str} (z : Str)
    (ha : a.dropWhile isPySpace = a) (hne : a ≠ []) :
    (a ++ z).dropWhile isPySpace = a ++ z := by
  have hempty : (a.dropWhile isPySpace).isEmpty = false := by
    rw [ha]
    cases a with
    | nil => exact absurd rfl hne
    | cons c rest => rfl
  rw [List.dropWhile_append, hempty, ha]
  rfl

theorem dropWhile_ws_idem (s : Str) :
    (s.dropWhile isPySpace).dropWhile isPySpace = s.dropWhile isPySpace := by
  induction s with
  | nil => rfl
  | cons c rest ih =>
    by_cases h : isPySpace c
    · simp [List.dropWhile_cons, h, ih]
    · simp [List.dropWhile_cons, h]

theorem pyStrip_eq_self_of_solid {s : Str} (h1 : s.dropWhile isPySpace = s)
    (h2 : s.reverse.dropWhile isPySpace = s.reverse) : pyStrip s = s := by
  simp [pyStrip, h1, h2]

theorem reverse_fence_end_solid (x : Str) :
    ((x ++ fence).reverse).dropWhile isPySpace = (x ++ fence).reverse := by
  rw [List.reverse_append]
  exact dropWhile_ws_append_of_solid x.reverse (by decide) (by decide)

theorem pyStrip_append_fence (a : Str) :
    pyStrip (a ++ fence) = a.dropWhile isPySpace ++ fence := by
  have key : (a ++ fence).dropWhile isPySpace = a.dropWhile isPySpace ++ fence := by
    rw [List.dropWhile_append]
    cases he : (a.dropWhile isPySpace).isEmpty with
    | true =>
      have : a.dropWhile isPySpace = [] := by
        cases hd : a.dropWhile isPySpace with
        | nil => rfl
        | cons c rest => rw [hd] at he; cases he
      rw [this]
      rfl
    | false => rfl
  show ((((a ++ fence).dropWhile isPySpace).reverse.dropWhile isPySpace).reverse) = _
  rw [key, reverse_fence_end_solid, List.reverse_reverse]

theorem pyStrip_dropWhile_ws (s : Str) :
    pyStrip (s.dropWhile isPySpace) = pyStrip s := by
  simp [pyStrip, dropWhile_ws_idem]

theorem pyStrip_fenceJson_wrap (y : Str) :
    pyStrip (fenceJson ++ y ++ fence) = fenceJson ++ y ++ fence := by
  apply pyStrip_eq_self_of_solid
  · rw [List.append_assoc]
    exact dropWhile_ws_append_of_solid (y ++ fence) (by decide) (by decide)
  · exact reverse_fence_end_solid (fenceJson ++ y)

theorem pyStrip_fence_wrap (y : Str) :
    pyStrip (fence ++ y ++ fence) = fence ++ y ++ fence := by
  apply pyStrip_eq_self_of_solid
  · rw [List.append_assoc]
    exact dropWhile_ws_append_of_solid (y ++ fence) (by decide) (by decide)
  · exact reverse_fence_end_solid (fence ++ y)

theorem remove_unfenced {s : Str} (h2 : startsWithL (pyStrip s) fence = false)
    (h3 : endsWithL (pyStrip s) fence = false) :
    remove_code_fences s = pyStrip s := by
  simp [remove_code_fences, h2, h3, not_fenceJson_of_not_fence h2]

theorem remove_json_wrapped (inner : Str) :
    remove_code_fences (fenceJson ++ inner ++ fence) = pyStrip inner := by
  have ht0 : pyStrip (fenceJson ++ inner ++ fence) = fenceJson ++ inner ++ fence :=
    pyStrip_fenceJson_wrap inner
  have hstart : startsWithL (fenceJson ++ inner ++ fence) fenceJson = true :=
    (startsWithL_iff _ _).2 ⟨inner ++ fence, (List.append_assoc _ _ _).symm⟩
  have hdrop : (fenceJson ++ inner ++ fence).drop 7 = inner ++ fence := by
    rw [List.append_assoc]
    exact List.drop_left' rfl
  have hstrip1 : pyStrip (inner ++ fence) = inner.dropWhile isPySpace ++ fence :=
    pyStrip_append_fence inner
  have hend : endsWithL (inner.dropWhile isPySpace ++ fence) fence = true :=
    (endsWithL_iff _ _).2 ⟨_, rfl⟩
  have hlen3 : fence.length = 3 := rfl
  have htake : (inner.dropWhile isPySpace ++ fence).take
      ((inner.dropWhile isPySpace ++ fence).length - 3) = inner.dropWhile isPySpace := by
    apply List.take_left'
    rw [List.length_append, hlen3]
    omega
  simp only [remove_code_fences, ht0, hstart, if_true, hdrop, hstrip1, hend, htake]
  exact pyStrip_dropWhile_ws inner

theorem fenceJson_check_bare {inner : Str} (hj : startsWithL inner jsonTail = false) :
    startsWithL (fence ++ inner ++ fence) fenceJson = false := by
  have hjl : jsonTail.length = 4 := rfl
  cases hc : startsWithL (fence ++ inner ++ fence) fenceJson with
  | false => rfl
  | true =>
    exfalso
    obtain ⟨r, hr⟩ := (startsWithL_iff _ _).1 hc
    have hr' : fence ++ (jsonTail ++ r) = fence ++ (inner ++ fence) := by
      rw [← List.append_assoc]
      rw [show fence ++ jsonTail = fenceJson from rfl]
      rw [hr, List.append_assoc]
    have heq : jsonTail ++ r = inner ++ fence := List.append_cancel_left hr'
    rcases Nat.lt_or_ge inner.length 4 with hlen | hlen
    · have hdrop := congrArg (List.drop inner.length) heq
      rw [List.drop_append_of_le_length (by omega), List.drop_left] at hdrop
      have htake1 := congrArg (List.take 1) hdrop
      rw [List.take_append_of_le_length (by rw [List.length_drop]; omega)] at htake1
      generalize inner.length = k at hlen htake1
      interval_cases k <;> exact absurd htake1 (by decide)
    · have htk := congrArg (List.take 4) heq
      rw [List.take_append_of_le_length (by omega),
        List.take_append_of_le_length hlen] at htk
      rw [show jsonTail.take 4 = jsonTail from rfl] at htk
      have hpre : startsWithL inner jsonTail = true :=
        (startsWithL_iff _ _).2 ⟨inner.drop 4, by rw [htk]; exact List.take_append_drop 4 inner⟩
      rw [hj] at hpre
      cases hpre

theorem remove_bare_wrapped (inner : Str) (hj : startsWithL inner jsonTail = false) :
    remove_code_fences (fence ++ inner ++ fence) = pyStrip inner := by
  have ht0 : pyStrip (fence ++ inner ++ fence) = fence ++ inner ++ fence :=
    pyStrip_fence_wrap inner
  have hjson : startsWithL (fence ++ inner ++ fence) fenceJson = false :=
    fenceJson_check_bare hj
  have hstart : startsWithL (fence ++ inner ++ fence) fence = true :=
    (startsWithL_iff _ _).2 ⟨inner ++ fence, (List.append_assoc _ _ _).symm⟩
  have hdrop : (fence ++ inner ++ fence).drop 3 = inner ++ fence := by
    rw [List.append_assoc]
    exact List.drop_left' rfl
  have hstrip1 : pyStrip (inner ++ fence) = inner.dropWhile isPySpace ++ fence :=
    pyStrip_append_fence inner
  have hend : endsWithL (inner.dropWhile isPySpace ++ fence) fence = true :=
    (endsWithL_iff _ _).2 ⟨_, rfl⟩
  have hlen3 : fence.length = 3 := rfl
  have htake : (inner.dropWhile isPySpace ++ fence).take
      ((inner.dropWhile isPySpace ++ fence).length - 3) = inner.dropWhile isPySpace := by
    apply List.take_left'
    rw [List.length_append, hlen3]
    omega
  simp only [remove_code_fences, ht0, hjson, hstart, if_true, Bool.false_eq_true,
    if_false, hdrop, hstrip1, hend, htake]
  exact pyStrip_dropWhile_ws inner

-- Dict lemmas.

theorem dictLookup_cons (k' : Str) (v : JVal) (rest : Dict) (k : Str) :
    dictLookup ((k', v) :: rest) k = if k' = k then some v else dictLookup rest k := rfl

theorem dictLookup_eq_dGet {d : Dict} {k : Str} (h : (dictLookup d k).isSome = true)
    (dflt : JVal) : dictLookup d k = some (dGet d k dflt) := by
  unfold dGet
  cases hl : dictLookup d k with
  | none => rw [hl] at h; simp at h
  | some v => rfl

theorem mem_keysOf_of_isSome {d : Dict} {k : Str} (h : (dictLookup d k).isSome = true) :
    k ∈ keysOf d := by
  induction d with
  | nil => simp [dictLookup] at h
  | cons kv rest ih =>
    obtain ⟨k', v⟩ := kv
    by_cases hk : k' = k
    · subst hk
      exact List.mem_cons_self k' (keysOf rest)
    · rw [dictLookup_cons, if_neg hk] at h
      simp only [keysOf, List.map_cons, List.mem_cons]
      exact Or.inr (ih h)

theorem dictLookup_eq_none_of_not_mem {d : Dict} {k : Str} (h : k ∉ keysOf d) :
    dictLookup d k = none := by
  induction d with
  | nil => rfl
  | cons kv rest ih =>
    obtain ⟨k', v⟩ := kv
    simp only [keysOf, List.map_cons, List.mem_cons, not_or] at h
    obtain ⟨h1, h2⟩ := h
    rw [dictLookup_cons, if_neg (fun hh : k' = k => h1 hh.symm)]
    exact ih h2

theorem lookup_normalize_score (d : Dict) :
    dictLookup (normalize d) kScore = some (dGet d kScore (JVal.jnum 0)) := by
  unfold normalize
  rw [dictLookup_cons, if_pos rfl]

theorem lookup_normalize_expl (d : Dict) :
    dictLookup (normalize d) kExplanation = some (dGet d kExplanation (JVal.jstr [])) := by
  unfold normalize
  rw [dictLookup_cons, if_neg (by decide : ¬(kScore = kExplanation)),
    dictLookup_cons, if_pos rfl]

theorem lookup_normalize_missing (d : Dict) :
    dictLookup (normalize d) kMissing = some (dGet d kMissing (JVal.jarr [])) := by
  unfold normalize
  rw [dictLookup_cons, if_neg (by decide : ¬(kScore = kMissing)),
    dictLookup_cons, if_neg (by decide : ¬(kExplanation = kMissing)),
    dictLookup_cons, if_pos rfl]

theorem lookup_normalize_present (d : Dict) :
    dictLookup (normalize d) kPresent = some (dGet d kPresent (JVal.jarr [])) := by
  unfold normalize
  rw [dictLookup_cons, if_neg (by decide : ¬(kScore = kPresent)),
    dictLookup_cons, if_neg (by decide : ¬(kExplanation = kPresent)),
    dictLookup_cons, if_neg (by decide : ¬(kMissing = kPresent)),
    dictLookup_cons, if_pos rfl]

theorem lookup_normalize_none (d : Dict) {k : Str}
    (h1 : k ≠ kScore) (h2 : k ≠ kExplanation) (h3 : k ≠ kMissing) (h4 : k ≠ kPresent) :
    dictLookup (normalize d) k = none := by
  unfold normalize
  rw [dictLookup_cons, if_neg (fun h : kScore = k => h1 h.symm),
    dictLookup_cons, if_neg (fun h : kExplanation = k => h2 h.symm),
    dictLookup_cons, if_neg (fun h : kMissing = k => h3 h.symm),
    dictLookup_cons, if_neg (fun h : kPresent = k => h4 h.symm)]
  rfl

-- ===== Claim theorems =====

/-- C1: every failure raised during the AI call or during parsing/normalizing
of its reply (network error, client-library exception, invalid JSON, or a
non-dict JSON reply) makes `call_gemini` return the single degraded result
with score 0, an explanation embedding the failure's textual description, and
empty skill lists; the exception never propagates (`call_gemini` is total by
construction), and the `/upload` handler returns this result with HTTP
status 200. -/
theorem call_gemini_failure_degraded
    (generate : List Content → Except Str Str) (parse : Str → Except Str JVal)
    (extract : Str → Except Str Str) (req : UploadRequest)
    (fileBytes resume_txt jd_txt e : Str)
    (hres : fieldLookup req.files kResume = some fileBytes)
    (hjd : fieldLookup req.form kJdText = some jd_txt)
    (hext : extract fileBytes = Except.ok resume_txt)
    (hfail : failureMsg generate parse resume_txt jd_txt = some e) :
    call_gemini generate parse resume_txt jd_txt = degraded e ∧
    degraded e = [(kScore, JVal.jnum 0), (kExplanation, JVal.jstr (failPrefixStr ++ e)),
      (kMissing, JVal.jarr []), (kPresent, JVal.jarr [])] ∧
    upload_and_analyze extract generate parse req = (200, degraded e) := by
  have hcg : call_gemini generate parse resume_txt jd_txt = degraded e := by
    unfold call_gemini
    unfold failureMsg at hfail
    cases hg : generate (buildContents resume_txt jd_txt) with
    | error e2 =>
      simp only [hg, Option.some.injEq] at hfail
      simp only [hg]
      rw [hfail]
    | ok reply =>
      simp only [hg] at hfail
      simp only [hg]
      cases hp : parse (remove_code_fences (pyStrip reply)) with
      | error e2 =>
        simp only [hp, Option.some.injEq] at hfail
        simp only [hp]
        rw [hfail]
      | ok v =>
        simp only [hp] at hfail
        cases v with
        | jobj data => simp at hfail
        | jnull => simp only [Option.some.injEq] at hfail; rw [← hfail]
        | jbool b => simp only [Option.some.injEq] at hfail; rw [← hfail]
        | jnum n => simp only [Option.some.injEq] at hfail; rw [← hfail]
        | jstr s2 => simp only [Option.some.injEq] at hfail; rw [← hfail]
        | jarr xs => simp only [Option.some.injEq] at hfail; rw [← hfail]
  refine ⟨hcg, rfl, ?_⟩
  unfold upload_and_analyze
  simp only [hres, hjd, hext, hcg]

/-- Witness for C1 at a concrete failing stub model. -/
theorem call_gemini_failure_degraded_witness :
    failureMsg genFail parseFail sampleResume sampleJd = some netErr ∧
    call_gemini genFail parseFail sampleResume sampleJd = degraded netErr ∧
    upload_and_analyze (extractOk sampleResume) genFail parseFail sampleReq
      = (200, degraded netErr) := by
  have h := call_gemini_failure_degraded genFail parseFail (extractOk sampleResume)
    sampleReq pdfBytes sampleResume sampleJd netErr rfl rfl rfl rfl
  exact ⟨rfl, h.1, h.2.2⟩

/-- C2 (counterexample): a parsed reply object carrying the four expected keys
with correct types plus one extra key is not reproduced verbatim - the
normalizer drops the extra key, so the result differs from the parsed
object. -/
theorem normalize_not_verbatim_extra_key :
    ¬ dictEqv (normalize extraDict) extraDict := by
  intro h
  have h2 := h kExtra
  rw [show dictLookup (normalize extraDict) kExtra = none from rfl,
    show dictLookup extraDict kExtra = some (JVal.jnum 1) from rfl] at h2
  exact Option.noConfusion h2

/-- C2 (amended): for every parsed reply object containing exactly the four
expected keys with correct types, the normalized result equals the parsed
object as a Python dict (same keys, same values). -/
theorem normalize_verbatim (d : Dict) (hkeys : exactKeys d = true)
    (htypes : wellTyped d = true) : dictEqv (normalize d) d := by
  unfold exactKeys at hkeys
  simp only [Bool.and_eq_true, beq_iff_eq] at hkeys
  obtain ⟨⟨⟨⟨hlen, hS⟩, hE⟩, hM⟩, hP⟩ := hkeys
  have hsub : fourKeys ⊆ keysOf d := by
    intro x hx
    simp only [fourKeys, List.mem_cons, List.not_mem_nil, or_false] at hx
    rcases hx with rfl | rfl | rfl | rfl
    · exact mem_keysOf_of_isSome hS
    · exact mem_keysOf_of_isSome hE
    · exact mem_keysOf_of_isSome hM
    · exact mem_keysOf_of_isSome hP
  have hperm : List.Perm fourKeys (keysOf d) := by
    refine List.Subperm.perm_of_length_le (List.subperm_of_subset (by decide) hsub) ?_
    have h4 : (keysOf d).length = 4 := by
      unfold keysOf
      rw [List.length_map, hlen]
    rw [h4]
    decide
  intro k
  by_cases h1 : k = kScore
  · subst h1
    rw [lookup_normalize_score, dictLookup_eq_dGet hS (JVal.jnum 0)]
  · by_cases h2 : k = kExplanation
    · subst h2
      rw [lookup_normalize_expl, dictLookup_eq_dGet hE (JVal.jstr [])]
    · by_cases h3 : k = kMissing
      · subst h3
        rw [lookup_normalize_missing, dictLookup_eq_dGet hM (JVal.jarr [])]
      · by_cases h4 : k = kPresent
        · subst h4
          rw [lookup_normalize_present, dictLookup_eq_dGet hP (JVal.jarr [])]
        · have hnot : k ∉ keysOf d := by
            intro hk
            have hm : k ∈ fourKeys := hperm.mem_iff.2 hk
            simp only [fourKeys, List.mem_cons, List.not_mem_nil, or_false] at hm
            rcases hm with rfl | rfl | rfl | rfl
            · exact h1 rfl
            · exact h2 rfl
            · exact h3 rfl
            · exact h4 rfl
          rw [lookup_normalize_none d h1 h2 h3 h4, dictLookup_eq_none_of_not_mem hnot]

/-- Witness for the amended C2 at the spec's example verdict. -/
theorem normalize_verbatim_witness :
    exactKeys exampleDict = true ∧ wellTyped exampleDict = true ∧
    dictEqv (normalize exampleDict) exampleDict :=
  ⟨rfl, rfl, normalize_verbatim exampleDict rfl rfl⟩

/-- C3: the normalizer substitutes the defaults score 0, empty explanation,
empty missing-skills and empty present-skills for exactly the keys absent
from the parsed object, while values of present keys pass through
unchanged. -/
theorem normalize_defaults (d : Dict) :
    (∀ v, dictLookup d kScore = some v → dictLookup (normalize d) kScore = some v) ∧
    (dictLookup d kScore = none → dictLookup (normalize d) kScore = some (JVal.jnum 0)) ∧
    (∀ v, dictLookup d kExplanation = some v →
      dictLookup (normalize d) kExplanation = some v) ∧
    (dictLookup d kExplanation = none →
      dictLookup (normalize d) kExplanation = some (JVal.jstr [])) ∧
    (∀ v, dictLookup d kMissing = some v → dictLookup (normalize d) kMissing = some v) ∧
    (dictLookup d kMissing = none → dictLookup (normalize d) kMissing = some (JVal.jarr [])) ∧
    (∀ v, dictLookup d kPresent = some v → dictLookup (normalize d) kPresent = some v) ∧
    (dictLookup d kPresent = none →
      dictLookup (normalize d) kPresent = some (JVal.jarr [])) := by
  refine ⟨?_, ?_, ?_, ?_, ?_, ?_, ?_, ?_⟩
  · intro v hv; rw [lookup_normalize_score]; unfold dGet; rw [hv]
  · intro hv; rw [lookup_normalize_score]; unfold dGet; rw [hv]
  · intro v hv; rw [lookup_normalize_expl]; unfold dGet; rw [hv]
  · intro hv; rw [lookup_normalize_expl]; unfold dGet; rw [hv]
  · intro v hv; rw [lookup_normalize_missing]; unfold dGet; rw [hv]
  · intro hv; rw [lookup_normalize_missing]; unfold dGet; rw [hv]
  · intro v hv; rw [lookup_normalize_present]; unfold dGet; rw [hv]
  · intro hv; rw [lookup_normalize_present]; unfold dGet; rw [hv]

/-- Witness for C3: a reply with only a score passes the score through and
defaults the explanation. -/
theorem normalize_defaults_witness :
    dictLookup (normalize [(kScore, JVal.jnum 5)]) kScore = some (JVal.jnum 5) ∧
    dictLookup (normalize [(kScore, JVal.jnum 5)]) kExplanation = some (JVal.jstr []) :=
  ⟨(normalize_defaults [(kScore, JVal.jnum 5)]).1 (JVal.jnum 5) rfl,
   (normalize_defaults [(kScore, JVal.jnum 5)]).2.2.2.1 rfl⟩

/-- C4 (counterexample): a reply whose content begins with the four letters
json and is wrapped in a bare fence is mis-stripped: the opening check first
matches the json fence and eats seven characters although only a bare
three-character fence is present, so the stripped text differs from the
trimmed unwrapped reply, and a JSON parser accepts one but not the other. -/
theorem remove_fences_counterexample :
    remove_code_fences (fence ++ jsonPayload ++ fence) ≠ remove_code_fences jsonPayload ∧
    (sevenParse (remove_code_fences (fence ++ jsonPayload ++ fence))).isOk = true ∧
    (sevenParse (remove_code_fences jsonPayload)).isOk = false :=
  ⟨by decide, by decide, by decide⟩

/-- C4 (amended): for every reply wrapped in a json fence or a bare fence,
provided the unwrapped content does not itself begin with the letters json
and, after trimming, neither begins nor ends with a three-backtick fence,
stripping removes exactly the one opening fence (opening check first, with
trimming) and the one closing fence (checked independently): the result is
the trimmed unwrapped reply in both cases, hence any parser gives identical
results on the stripped and on the unwrapped reply. -/
theorem remove_fences_wrapped (inner : Str)
    (hj : startsWithL inner jsonTail = false)
    (h2 : startsWithL (pyStrip inner) fence = false)
    (h3 : endsWithL (pyStrip inner) fence = false) :
    remove_code_fences (fenceJson ++ inner ++ fence) = pyStrip inner ∧
    remove_code_fences (fence ++ inner ++ fence) = pyStrip inner ∧
    remove_code_fences inner = pyStrip inner ∧
    (∀ parse : Str → Except Str JVal,
      parse (remove_code_fences (fenceJson ++ inner ++ fence))
          = parse (remove_code_fences inner) ∧
      parse (remove_code_fences (fence ++ inner ++ fence))
          = parse (remove_code_fences inner)) := by
  have hA := remove_json_wrapped inner
  have hB := remove_bare_wrapped inner hj
  have hC := remove_unfenced h2 h3
  refine ⟨hA, hB, hC, fun parse => ⟨?_, ?_⟩⟩
  · rw [hA, hC]
  · rw [hB, hC]

/-- Witness for the amended C4 at a concrete fenced JSON reply. -/
theorem remove_fences_wrapped_witness :
    startsWithL innerSample jsonTail = false ∧
    remove_code_fences (fenceJson ++ innerSample ++ fence) = pyStrip innerSample ∧
    remove_code_fences (fence ++ innerSample ++ fence) = pyStrip innerSample := by
  have h := remove_fences_wrapped innerSample (by decide) (by decide) (by decide)
  exact ⟨by decide, h.1, h.2.1⟩

/-- C5: a multipart POST to the upload route missing the resume file field or
the jd_text form field returns HTTP 400 with a JSON body carrying an error
key; the response is the same for every extractor, model and parser, so no
extraction and no AI call influences it. -/
theorem upload_missing_field_400
    (extract : Str → Except Str Str) (generate : List Content → Except Str Str)
    (parse : Str → Except Str JVal) (req : UploadRequest)
    (h : fieldLookup req.files kResume = none ∨ fieldLookup req.form kJdText = none) :
    upload_and_analyze extract generate parse req
      = (400, [(kError, JVal.jstr missingMsg)]) ∧
    dictLookup (upload_and_analyze extract generate parse req).2 kError
      = some (JVal.jstr missingMsg) := by
  have hmain : upload_and_analyze extract generate parse req
      = (400, [(kError, JVal.jstr missingMsg)]) := by
    unfold upload_and_analyze
    rcases h with h | h
    · rw [h]
    · cases hr : fieldLookup req.files kResume with
      | none => rfl
      | some fb => rw [h]
  refine ⟨hmain, ?_⟩
  rw [hmain]
  rfl

/-- Witness for C5 at a request with no resume file. -/
theorem upload_missing_field_400_witness :
    upload_and_analyze (extractOk sampleResume) genFail parseFail emptyFilesReq
      = (400, [(kError, JVal.jstr missingMsg)]) :=
  (upload_missing_field_400 (extractOk sampleResume) genFail parseFail emptyFilesReq
    (Or.inl rfl)).1

/-- C6: the message submitted to the model consists of the fixed prompt, the
resume text truncated to exactly its first 4000 characters, and the job
description truncated to exactly its first 2000 characters; characters beyond
each cutoff do not influence the contents, and text at or under the cutoff is
included unchanged. -/
theorem buildContents_truncates (resume_txt jd_txt : Str) :
    buildContents resume_txt jd_txt =
      [⟨userRole, promptText⟩,
       ⟨userRole, resumeHeader ++ resume_txt.take 4000⟩,
       ⟨userRole, jdHeader ++ jd_txt.take 2000⟩] ∧
    buildContents resume_txt jd_txt
      = buildContents (resume_txt.take 4000) (jd_txt.take 2000) ∧
    (resume_txt.length ≤ 4000 →
      resumeHeader ++ resume_txt.take 4000 = resumeHeader ++ resume_txt) ∧
    (jd_txt.length ≤ 2000 → jdHeader ++ jd_txt.take 2000 = jdHeader ++ jd_txt) := by
  refine ⟨rfl, ?_, ?_, ?_⟩
  · simp only [buildContents, List.take_take, Nat.min_self]
  · intro h
    rw [List.take_of_length_le h]
  · intro h
    rw [List.take_of_length_le h]

/-- Witness for C6 at a short resume text. -/
theorem buildContents_truncates_witness :
    sampleResume.length ≤ 4000 ∧
    resumeHeader ++ sampleResume.take 4000 = resumeHeader ++ sampleResume :=
  ⟨by decide, (buildContents_truncates sampleResume sampleJd).2.2.1 (by decide)⟩

/-- C7: when the uploaded binary makes the PDF extractor raise a parse error,
the upload pipeline does not catch it; the process-wide exception handler
turns it into HTTP 500 with a JSON error body, not a degraded HTTP 200
result. -/
theorem upload_pdf_error_500
    (extract : Str → Except Str Str) (generate : List Content → Except Str Str)
    (parse : Str → Except Str JVal) (req : UploadRequest) (fileBytes jd_txt e : Str)
    (hres : fieldLookup req.files kResume = some fileBytes)
    (hjd : fieldLookup req.form kJdText = some jd_txt)
    (hext : extract fileBytes = Except.error e) :
    upload_and_analyze extract generate parse req = (500, [(kError, JVal.jstr e)]) := by
  unfold upload_and_analyze
  simp only [hres, hjd, hext]

/-- Witness for C7 at a malformed PDF upload. -/
theorem upload_pdf_error_500_witness :
    upload_and_analyze (extractFail fitzErr) genFail parseFail badReq
      = (500, [(kError, JVal.jstr fitzErr)]) :=
  upload_pdf_error_500 (extractFail fitzErr) genFail parseFail badReq badPdf sampleJd
    fitzErr rfl rfl rfl

/-- C8: two submissions of the same request against the same deterministic
stub extractor, model and parser yield identical responses: the pipeline is a
pure function of its inputs, with no state carried from the first request
into the second. -/
theorem upload_idempotent
    (extract : Str → Except Str Str) (generate : List Content → Except Str Str)
    (parse : Str → Except Str JVal) (req : UploadRequest) :
    (processTwice extract generate parse req).1
      = (processTwice extract generate parse req).2 := rfl

/-- C9: on input that, after trimming surrounding whitespace, neither starts
nor ends with a three-backtick fence, remove_code_fences returns exactly the
trimmed string. -/
theorem remove_fences_unfenced_id (s : Str)
    (h2 : startsWithL (pyStrip s) fence = false)
    (h3 : endsWithL (pyStrip s) fence = false) :
    remove_code_fences s = pyStrip s :=
  remove_unfenced h2 h3

/-- Witness for C9 at a plain unfenced string. -/
theorem remove_fences_unfenced_id_witness :
    startsWithL (pyStrip sampleJd) fence = false ∧
    remove_code_fences sampleJd = pyStrip sampleJd :=
  ⟨by decide, remove_fences_unfenced_id sampleJd (by decide) (by decide)⟩

/-- C10: every dict returned by call_gemini, on the success path and on every
failure path, has exactly the four keys score, explanation, missing_skills
and present_skills, in this order; any extra keys of the parsed reply are
dropped. -/
theorem call_gemini_four_keys
    (generate : List Content → Except Str Str) (parse : Str → Except Str JVal)
    (resume_txt jd_txt : Str) :
    keysOf (call_gemini generate parse resume_txt jd_txt) = fourKeys := by
  unfold call_gemini
  cases generate (buildContents resume_txt jd_txt) with
  | error e => rfl
  | ok reply =>
    show keysOf (match parse (remove_code_fences (pyStrip reply)) with
      | Except.error e => degraded e
      | Except.ok (JVal.jobj data) => normalize data
      | Except.ok v => degraded (noDictMsg v)) = fourKeys
    cases parse (remove_code_fences (pyStrip reply)) with
    | error e => rfl
    | ok v => cases v <;> rfl

end ResumeAnalyzer
